import Mathlib

/-!
Verification of the market-data snapshot engine (`market/data.go`).

The Go source is shallowly embedded: Go `float64` arithmetic is modelled by
exact rationals `ℚ`, Go slices by `List`, Go strings by `String` (symbol
normalization works on the underlying `List Char`), and fallible fetches by
`Except String`.  An out-of-range slice access (a Go runtime panic) is
modelled by a distinguished error value.  Every definition below mirrors the
corresponding Go function line by line.
-/

namespace Market

/-- One OHLCV candle (`Kline`, K线数据). -/
structure Kline where
  openTime : Int
  «open» : ℚ
  high : ℚ
  low : ℚ
  close : ℚ
  volume : ℚ
  closeTime : Int
  deriving DecidableEq, Repr

/-- Default candle used only to totalize index access in spec-side
index-based reformulations; never observable where the index is in range. -/
def defaultKline : Kline := ⟨0, 0, 0, 0, 0, 0, 0⟩

instance : Inhabited Kline := ⟨defaultKline⟩

/-- Open-interest data (`OIData`). -/
structure OIData where
  Latest : ℚ
  Average : ℚ
  deriving DecidableEq, Repr

/-- Intraday data (`IntradayData`, 日内数据): trailing indicator series over the intraday candles. -/
structure IntradayData where
  MidPrices : List ℚ
  EMA20Values : List ℚ
  MACDValues : List ℚ
  RSI7Values : List ℚ
  RSI14Values : List ℚ
  Interval : String
  deriving DecidableEq, Repr

/-- Longer-term data (`LongerTermData`, 长期数据): the 4-hour-timeframe context block. -/
structure LongerTermData where
  EMA20 : ℚ
  EMA50 : ℚ
  ATR3 : ℚ
  ATR14 : ℚ
  CurrentVolume : ℚ
  AverageVolume : ℚ
  MACDValues : List ℚ
  RSI14Values : List ℚ
  deriving DecidableEq, Repr

/-- Market data record (`Data`, 市场数据结构): the snapshot. -/
structure Data where
  Symbol : String
  CurrentPrice : ℚ
  PriceChange1h : ℚ
  PriceChange4h : ℚ
  CurrentEMA20 : ℚ
  CurrentMACD : ℚ
  CurrentRSI7 : ℚ
  OpenInterest : OIData
  FundingRate : ℚ
  IntradaySeries : IntradayData
  LongerTermContext : LongerTermData
  deriving DecidableEq, Repr

/-- Function `calculateEMA`: seed with the simple average of the first `period`
closes, then run `ema = (close-ema)*2/(period+1) + ema` over the remaining
candles (the Go loop `for i := period; i < len(klines); i++`). -/
def calculateEMA (klines : List Kline) (period : ℕ) : ℚ :=
  if klines.length < period then 0
  else
    let ema := ((klines.take period).map Kline.close).sum / (period : ℚ)
    let multiplier : ℚ := 2 / ((period : ℚ) + 1)
    (klines.drop period).foldl (fun ema k => (k.close - ema) * multiplier + ema) ema

/-- Function `calculateMACD`: `EMA12 - EMA26` over the same sequence, 0 below 26 candles. -/
def calculateMACD (klines : List Kline) : ℚ :=
  if klines.length < 26 then 0
  else calculateEMA klines 12 - calculateEMA klines 26

/-- Close-to-close deltas: element `j` is `klines[j+1].Close - klines[j].Close`,
matching the Go expression `change := klines[i].Close - klines[i-1].Close`. -/
def deltas (klines : List Kline) : List ℚ :=
  List.zipWith (fun a b => a.close - b.close) klines.tail klines

/-- One step of the Wilder smoothing of `(avgGain, avgLoss)` in `calculateRSI`. -/
def rsiStep (period : ℕ) (p : ℚ × ℚ) (change : ℚ) : ℚ × ℚ :=
  if 0 < change then
    ((p.1 * ((period : ℚ) - 1) + change) / (period : ℚ),
     (p.2 * ((period : ℚ) - 1)) / (period : ℚ))
  else
    ((p.1 * ((period : ℚ) - 1)) / (period : ℚ),
     (p.2 * ((period : ℚ) - 1) + (-change)) / (period : ℚ))

/-- The `(avgGain, avgLoss)` pair of `calculateRSI`: seeded from the first
`period` deltas (the Go loop `for i := 1; i <= period; i++`), then Wilder
smoothing over the remaining deltas (`for i := period + 1; i < len(klines); i++`). -/
def rsiAvgs (klines : List Kline) (period : ℕ) : ℚ × ℚ :=
  let ds := deltas klines
  let gl := (ds.take period).foldl
    (fun gl c => if 0 < c then (gl.1 + c, gl.2) else (gl.1, gl.2 + (-c))) (0, 0)
  (ds.drop period).foldl (rsiStep period) (gl.1 / (period : ℚ), gl.2 / (period : ℚ))

/-- Function `calculateRSI`: 0 when `len(klines) <= period`; 100 when the final
`avgLoss` is 0; otherwise `100 - 100/(1+avgGain/avgLoss)`. -/
def calculateRSI (klines : List Kline) (period : ℕ) : ℚ :=
  if klines.length ≤ period then 0
  else
    let avgs := rsiAvgs klines period
    if avgs.2 = 0 then 100
    else 100 - (100 / (1 + avgs.1 / avgs.2))

/-- True range of candle `cur` given the previous candle `prev`
(`tr1`, `tr2`, `tr3` and their max in `calculateATR`). -/
def trueRange (cur prev : Kline) : ℚ :=
  max (cur.high - cur.low) (max |cur.high - prev.close| |cur.low - prev.close|)

/-- The true ranges `trs[1] .. trs[len-1]` of `calculateATR`: element `j`
is the true range of candle `j+1` against candle `j` (the Go `trs[0]` slot
is never written and never read). -/
def trueRanges (klines : List Kline) : List ℚ :=
  List.zipWith trueRange klines.tail klines

/-- Function `calculateATR`: 0 when `len(klines) <= period`; otherwise the average of
the first `period` true ranges followed by Wilder smoothing over the rest. -/
def calculateATR (klines : List Kline) (period : ℕ) : ℚ :=
  if klines.length ≤ period then 0
  else
    let trs := trueRanges klines
    let atr := (trs.take period).sum / (period : ℚ)
    (trs.drop period).foldl
      (fun atr tr => (atr * ((period : ℚ) - 1) + tr) / (period : ℚ)) atr

/-- The candle indices visited by the trailing-series loops: `start := len-10`
clamped at 0 (ℕ subtraction), then `for i := start; i < len(klines); i++`. -/
def windowIdxs (n : ℕ) : List ℕ :=
  (List.range n).drop (n - 10)

/-- Function `calculateIntradaySeries`: for each candle index in the trailing window,
append the close, and append each indicator recomputed on `klines[:i+1]`
only when `i` clears that indicator's threshold (19 / 25 / 7 / 14). -/
def calculateIntradaySeries (klines : List Kline) : IntradayData :=
  let n := klines.length
  { MidPrices := (klines.drop (n - 10)).map Kline.close
    EMA20Values := (windowIdxs n).filterMap
      (fun i => if 19 ≤ i then some (calculateEMA (klines.take (i + 1)) 20) else none)
    MACDValues := (windowIdxs n).filterMap
      (fun i => if 25 ≤ i then some (calculateMACD (klines.take (i + 1))) else none)
    RSI7Values := (windowIdxs n).filterMap
      (fun i => if 7 ≤ i then some (calculateRSI (klines.take (i + 1)) 7) else none)
    RSI14Values := (windowIdxs n).filterMap
      (fun i => if 14 ≤ i then some (calculateRSI (klines.take (i + 1)) 14) else none)
    Interval := "" }

/-- Function `calculateLongerTermData`: scalars over the full 4h sequence, volume
stats guarded by `len(klines) > 0`, and trailing MACD/RSI14 series. -/
def calculateLongerTermData (klines : List Kline) : LongerTermData :=
  let n := klines.length
  { EMA20 := calculateEMA klines 20
    EMA50 := calculateEMA klines 50
    ATR3 := calculateATR klines 3
    ATR14 := calculateATR klines 14
    CurrentVolume := match klines.getLast? with
      | some k => k.volume
      | none => 0
    AverageVolume := if 0 < n then (klines.map Kline.volume).sum / (n : ℚ) else 0
    MACDValues := (windowIdxs n).filterMap
      (fun i => if 25 ≤ i then some (calculateMACD (klines.take (i + 1))) else none)
    RSI14Values := (windowIdxs n).filterMap
      (fun i => if 14 ≤ i then some (calculateRSI (klines.take (i + 1)) 14) else none) }

/-- Function `selectInterval`: map the scan interval to a candle interval label. -/
def selectInterval (scanIntervalMinutes : ℕ) : String :=
  if scanIntervalMinutes ≤ 1 then "1m"
  else if scanIntervalMinutes ≤ 3 then "3m"
  else if scanIntervalMinutes ≤ 5 then "5m"
  else if scanIntervalMinutes ≤ 15 then "15m"
  else if scanIntervalMinutes ≤ 30 then "30m"
  else "1h"

/-- Function `calculateIntradayLimit`: `max(40, 120/scanIntervalMinutes)` candles. -/
def calculateIntradayLimit (scanIntervalMinutes : ℕ) : ℕ :=
  let barsFor2Hours := 120 / scanIntervalMinutes
  if barsFor2Hours < 40 then 40 else barsFor2Hours

/-- Function `Normalize` on the underlying character list: uppercase, then append
"USDT" unless it is already a suffix. -/
def normalizeChars (s : List Char) : List Char :=
  let u := s.map Char.toUpper
  if ("USDT".toList).isSuffixOf u then u else u ++ "USDT".toList

/-- Symbol normalization (`Normalize`): ensure an uppercase USDT pair. -/
def Normalize (symbol : String) : String :=
  ⟨normalizeChars symbol.data⟩

/-- The 1h price-change computation inside `GetWithInterval`:
`barsFor1h := 60 / scanIntervalMinutes`, compare the current price to the
close `barsFor1h` candles before the latest, guarded to 0.  The Go indexing
`klines[len-barsFor1h-1]` happens only under the length guard, so the
`getD` default is never observable. -/
def priceChange1hCalc (klines : List Kline) (scanIntervalMinutes : ℕ)
    (currentPrice : ℚ) : ℚ :=
  if 60 / scanIntervalMinutes + 1 ≤ klines.length then
    let price1hAgo :=
      (klines.getD (klines.length - 60 / scanIntervalMinutes - 1) defaultKline).close
    if 0 < price1hAgo then ((currentPrice - price1hAgo) / price1hAgo) * 100 else 0
  else 0

/-- The 4h price-change computation inside `GetWithInterval`: compare the
current price to the close of the 4h candle at index `len-2`, guarded to 0.
The Go indexing `klines4h[len-2]` happens only under the length guard, so
the `getD` default is never observable. -/
def priceChange4hCalc (klines4h : List Kline) (currentPrice : ℚ) : ℚ :=
  if 2 ≤ klines4h.length then
    let price4hAgo := (klines4h.getD (klines4h.length - 2) defaultKline).close
    if 0 < price4hAgo then ((currentPrice - price4hAgo) / price4hAgo) * 100 else 0
  else 0

/-- On open-interest fetch failure the aggregator substitutes `{0, 0}`
(`oiData = &OIData{Latest: 0, Average: 0}`). -/
def oiOrDefault : Except String OIData → OIData
  | .error _ => { Latest := 0, Average := 0 }
  | .ok oi => oi

/-- Function `getFundingRate` returns `0, err` on failure and the caller ignores the
error, so a failed fetch contributes a funding rate of 0. -/
def frOrDefault : Except String ℚ → ℚ
  | .error _ => 0
  | .ok r => r

/-- The outcomes of the four remote fetches performed by `GetWithInterval`,
abstracting the HTTP layer: each may fail independently. -/
structure FetchEnv where
  intraday : Except String (List Kline)
  fourHour : Except String (List Kline)
  openInterest : Except String OIData
  fundingRate : Except String ℚ

/-- Error text for a failed intraday candle fetch
(Go `fmt.Errorf("获取%s K线失败: %v", interval, err)`). -/
def intradayFetchErr (interval msg : String) : String :=
  "获取" ++ interval ++ " K线失败: " ++ msg

/-- Error text for a failed 4h candle fetch
(Go `fmt.Errorf("获取4小时K线失败: %v", err)`). -/
def fourHourFetchErr (msg : String) : String :=
  "获取4小时K线失败: " ++ msg

/-- The Go runtime panic raised by `klinesIntraday[len(klinesIntraday)-1]`
on an empty intraday slice, modelled as a distinguished error. -/
def emptyIntradayPanic : String :=
  "runtime error: index out of range"

/-- Function `GetWithInterval`: normalize the symbol, fail on either candle fetch
with an identifying message, tolerate open-interest / funding-rate failures,
and assemble the snapshot.  The unconditional Go indexing of the latest
intraday candle panics on an empty slice; that panic is modelled by
`emptyIntradayPanic`. -/
def GetWithInterval (symbol : String) (scanIntervalMinutes : ℕ)
    (env : FetchEnv) : Except String Data :=
  let sym := Normalize symbol
  let interval := selectInterval scanIntervalMinutes
  match env.intraday with
  | .error e => .error (intradayFetchErr interval e)
  | .ok klinesIntraday =>
    match env.fourHour with
    | .error e => .error (fourHourFetchErr e)
    | .ok klines4h =>
      match klinesIntraday.getLast? with
      | none => .error emptyIntradayPanic
      | some lastK =>
        let currentPrice := lastK.close
        .ok
          { Symbol := sym
            CurrentPrice := currentPrice
            PriceChange1h := priceChange1hCalc klinesIntraday scanIntervalMinutes currentPrice
            PriceChange4h := priceChange4hCalc klines4h currentPrice
            CurrentEMA20 := calculateEMA klinesIntraday 20
            CurrentMACD := calculateMACD klinesIntraday
            CurrentRSI7 := calculateRSI klinesIntraday 7
            OpenInterest := oiOrDefault env.openInterest
            FundingRate := frOrDefault env.fundingRate
            IntradaySeries := { calculateIntradaySeries klinesIntraday with Interval := interval }
            LongerTermContext := calculateLongerTermData klines4h }

/-- Function `Get`: the convenience entry point fixing a 3-minute scan interval. -/
def Get (symbol : String) (env : FetchEnv) : Except String Data :=
  GetWithInterval symbol 3 env

end Market

namespace Market

/-! ### Symbol normalization (C10) -/

theorem char_toNat_ofNat_valid (n : ℕ) (h : n.isValidChar) :
    (Char.ofNat n).toNat = n := by
  rw [Char.ofNat, dif_pos h]
  simp [Char.ofNatAux, Char.toNat, UInt32.toNat, BitVec.toNat_ofNatLt]

theorem char_toUpper_toUpper (c : Char) : c.toUpper.toUpper = c.toUpper := by
  simp only [Char.toUpper]
  by_cases h : c.toNat ≥ 97 ∧ c.toNat ≤ 122
  · rw [if_pos h]
    have hv : (c.toNat - 32).isValidChar := Or.inl (by omega)
    have ht : (Char.ofNat (c.toNat - 32)).toNat = c.toNat - 32 :=
      char_toNat_ofNat_valid _ hv
    rw [if_neg (by rw [ht]; omega)]
  · rw [if_neg h, if_neg h]

theorem map_toUpper_idem (s : List Char) :
    (s.map Char.toUpper).map Char.toUpper = s.map Char.toUpper := by
  induction s with
  | nil => rfl
  | cons c cs ih => simp only [List.map_cons, char_toUpper_toUpper, ih]

theorem usdt_upper : ("USDT".toList).map Char.toUpper = "USDT".toList := by decide

theorem normalizeChars_upper (s : List Char) :
    (normalizeChars s).map Char.toUpper = normalizeChars s := by
  unfold normalizeChars
  by_cases h : ("USDT".toList).isSuffixOf (s.map Char.toUpper)
  · rw [if_pos h]; exact map_toUpper_idem s
  · rw [if_neg h, List.map_append, map_toUpper_idem, usdt_upper]

theorem normalizeChars_suffix (s : List Char) :
    ("USDT".toList).isSuffixOf (normalizeChars s) = true := by
  unfold normalizeChars
  by_cases h : ("USDT".toList).isSuffixOf (s.map Char.toUpper)
  · rw [if_pos h]; exact h
  · rw [if_neg h]
    rw [List.isSuffixOf_iff_suffix]
    exact List.suffix_append _ _

theorem normalizeChars_idem (s : List Char) :
    normalizeChars (normalizeChars s) = normalizeChars s := by
  conv_lhs => rw [normalizeChars]
  rw [normalizeChars_upper s, if_pos (normalizeChars_suffix s)]

/-- C10: symbol normalization is idempotent, its output is invariant under
upper-casing (i.e. already uppercase), and it always ends with "USDT". -/
theorem Normalize_idem_upper_usdt (s : String) :
    Normalize (Normalize s) = Normalize s ∧
    (Normalize s).data.map Char.toUpper = (Normalize s).data ∧
    ("USDT".toList).isSuffixOf (Normalize s).data = true := by
  refine ⟨?_, normalizeChars_upper s.data, normalizeChars_suffix s.data⟩
  show (⟨normalizeChars (normalizeChars s.data)⟩ : String) = ⟨normalizeChars s.data⟩
  rw [normalizeChars_idem]

end Market

namespace Market

theorem take_range' (s n m : ℕ) : (List.range' s n).take m = List.range' s (min m n) := by
  apply List.ext_getElem
  · simp
  · intro i h1 h2
    simp [List.getElem_take, List.getElem_range']

theorem drop_range' (s n m : ℕ) : (List.range' s n).drop m = List.range' (s + m) (n - m) := by
  apply List.ext_getElem
  · simp
  · intro i h1 h2
    simp only [List.getElem_drop, List.getElem_range']
    omega

theorem drop_map_close_eq_range' (l : List Kline) (s : ℕ) :
    (l.drop s).map Kline.close =
      (List.range' s (l.length - s)).map (fun i => (l.getD i defaultKline).close) := by
  apply List.ext_getElem
  · simp
  · intro i h1 h2
    simp only [List.length_map, List.length_drop] at h1
    simp only [List.getElem_map, List.getElem_drop, List.getElem_range', Nat.one_mul]
    rw [List.getD_eq_getElem]

/-- Modelled from the spec: EMA seeded with the simple average of the first
`period` closes, then the recurrence applied once per candle from index
`period` to the last index, in chronological order. -/
def emaSpecDef (klines : List Kline) (period : ℕ) : ℚ :=
  if klines.length < period then 0
  else
    ((List.range' period (klines.length - period)).map
        (fun i => (klines.getD i defaultKline).close)).foldl
      (fun ema close => (close - ema) * (2 / ((period : ℚ) + 1)) + ema)
      (((klines.take period).map Kline.close).sum / (period : ℚ))

theorem calculateEMA_eq_spec (klines : List Kline) (period : ℕ) :
    calculateEMA klines period = emaSpecDef klines period := by
  simp only [calculateEMA, emaSpecDef]
  by_cases h : klines.length < period
  · rw [if_pos h, if_pos h]
  · rw [if_neg h, if_neg h]
    rw [← drop_map_close_eq_range', List.foldl_map]

/-- Builds a flat candle whose open/high/low/close all equal `c`. -/
def closeCandle (c : ℚ) : Kline :=
  { openTime := 0, «open» := c, high := c, low := c, close := c,
    volume := 0, closeTime := 0 }

/-- The 30 synthetic candles with strictly increasing closes 1..30. -/
def candles30 : List Kline :=
  [closeCandle 1, closeCandle 2, closeCandle 3, closeCandle 4, closeCandle 5,
   closeCandle 6, closeCandle 7, closeCandle 8, closeCandle 9, closeCandle 10,
   closeCandle 11, closeCandle 12, closeCandle 13, closeCandle 14, closeCandle 15,
   closeCandle 16, closeCandle 17, closeCandle 18, closeCandle 19, closeCandle 20,
   closeCandle 21, closeCandle 22, closeCandle 23, closeCandle 24, closeCandle 25,
   closeCandle 26, closeCandle 27, closeCandle 28, closeCandle 29, closeCandle 30]

/-- C2: `calculateEMA` fails closed to 0 when the sequence is shorter than
`period`, and otherwise equals the spec's seeded recurrence `emaSpecDef`
(simple average of the first `period` closes, then one smoothing step per
candle from index `period` on, in order); for the 30 candles with closes
1..30 the seed is mean(1..20) = 10.5 = 21/2 and the recurrence runs over
the 10 candles at indices 20..29. -/
theorem ema_matches_spec_and_fails_closed :
    (∀ (klines : List Kline) (period : ℕ),
      calculateEMA klines period = emaSpecDef klines period) ∧
    (∀ (klines : List Kline) (period : ℕ),
      klines.length < period → calculateEMA klines period = 0) ∧
    ((candles30.take 20).map Kline.close).sum / (20 : ℚ) = 21 / 2 ∧
    (candles30.drop 20).length = 10 := by
  refine ⟨calculateEMA_eq_spec, ?_, by norm_num [candles30, closeCandle],
    by norm_num [candles30]⟩
  intro klines period h
  simp [calculateEMA, h]

/-- Witness for C2 at a concrete input: the fail-closed branch for an empty
sequence with period 5. -/
theorem ema_matches_spec_and_fails_closed_witness :
    ([] : List Kline).length < 5 ∧ calculateEMA [] 5 = 0 :=
  ⟨by decide, ema_matches_spec_and_fails_closed.2.1 [] 5 (by decide)⟩

end Market

namespace Market

/-! ### MACD (C5) -/

/-- C5: `calculateMACD` is exactly `EMA12 - EMA26` over the same full
sequence once at least 26 candles are present, and 0 for any shorter
sequence (including lengths 12..25 where EMA12 alone may be non-zero). -/
theorem macd_eq_ema12_sub_ema26 (klines : List Kline) :
    (26 ≤ klines.length →
      calculateMACD klines = calculateEMA klines 12 - calculateEMA klines 26) ∧
    (klines.length < 26 → calculateMACD klines = 0) := by
  constructor
  · intro h
    simp [calculateMACD, Nat.not_lt.mpr h]
  · intro h
    simp [calculateMACD, h]

/-- Witness for C5: the identity on the 30-candle sequence, and the
fail-closed zero on its 15-candle truncation where EMA12 is 9.5 ≠ 0. -/
theorem macd_eq_ema12_sub_ema26_witness :
    (26 ≤ candles30.length ∧
      calculateMACD candles30 = calculateEMA candles30 12 - calculateEMA candles30 26) ∧
    ((candles30.take 15).length < 26 ∧ calculateMACD (candles30.take 15) = 0 ∧
      calculateEMA (candles30.take 15) 12 = 19 / 2) :=
  ⟨⟨by decide, (macd_eq_ema12_sub_ema26 candles30).1 (by decide)⟩,
   ⟨by decide, (macd_eq_ema12_sub_ema26 (candles30.take 15)).2 (by decide),
    by norm_num [candles30, closeCandle, calculateEMA]⟩⟩

/-! ### RSI (C3) -/

/-- Modelled from the spec: the RSI averages worded as in §4.1 — seed
`avgGain` is the sum of the positive deltas over the first `period` deltas
divided by `period`, `avgLoss` the sum of the magnitudes of the
non-positive deltas divided by `period`, then the Wilder recurrence once
per subsequent delta. -/
def rsiAvgsSpec (klines : List Kline) (period : ℕ) : ℚ × ℚ :=
  let ds := deltas klines
  (ds.drop period).foldl (rsiStep period)
    (((ds.take period).filter (fun c => decide (0 < c))).sum / (period : ℚ),
     (((ds.take period).filter (fun c => decide (¬ 0 < c))).map (fun c => -c)).sum / (period : ℚ))

theorem gainLoss_foldl (ds : List ℚ) (g0 l0 : ℚ) :
    ds.foldl (fun gl c => if 0 < c then (gl.1 + c, gl.2) else (gl.1, gl.2 + (-c))) (g0, l0) =
      (g0 + (ds.filter (fun c => decide (0 < c))).sum,
       l0 + ((ds.filter (fun c => decide (¬ 0 < c))).map (fun c => -c)).sum) := by
  induction ds generalizing g0 l0 with
  | nil => simp
  | cons c cs ih =>
    by_cases h : 0 < c
    · rw [List.foldl_cons, if_pos h, ih]
      simp [List.filter_cons, h, add_assoc]
    · rw [List.foldl_cons, if_neg h, ih]
      have hle : c ≤ 0 := le_of_not_lt h
      simp [List.filter_cons, h, hle, add_assoc]

theorem rsiAvgs_eq_spec (klines : List Kline) (period : ℕ) :
    rsiAvgs klines period = rsiAvgsSpec klines period := by
  simp only [rsiAvgs, rsiAvgsSpec, gainLoss_foldl, zero_add]

theorem rsiStep_nonneg (period : ℕ) (hp : 1 ≤ period) (p : ℚ × ℚ)
    (h1 : 0 ≤ p.1) (h2 : 0 ≤ p.2) (c : ℚ) :
    0 ≤ (rsiStep period p c).1 ∧ 0 ≤ (rsiStep period p c).2 := by
  have hq : (0 : ℚ) < (period : ℚ) := by exact_mod_cast hp
  have hq1 : (0 : ℚ) ≤ (period : ℚ) - 1 := by
    have h : (1 : ℚ) ≤ (period : ℚ) := by exact_mod_cast hp
    linarith
  have hm1 : 0 ≤ p.1 * ((period : ℚ) - 1) := mul_nonneg h1 hq1
  have hm2 : 0 ≤ p.2 * ((period : ℚ) - 1) := mul_nonneg h2 hq1
  unfold rsiStep
  by_cases h : 0 < c
  · rw [if_pos h]
    exact ⟨div_nonneg (by linarith) hq.le, div_nonneg hm2 hq.le⟩
  · rw [if_neg h]
    push_neg at h
    exact ⟨div_nonneg hm1 hq.le, div_nonneg (by linarith) hq.le⟩

theorem foldl_rsiStep_nonneg (period : ℕ) (hp : 1 ≤ period) (ds : List ℚ)
    (p : ℚ × ℚ) (h1 : 0 ≤ p.1) (h2 : 0 ≤ p.2) :
    0 ≤ (ds.foldl (rsiStep period) p).1 ∧ 0 ≤ (ds.foldl (rsiStep period) p).2 := by
  induction ds generalizing p with
  | nil => exact ⟨h1, h2⟩
  | cons c cs ih =>
    rw [List.foldl_cons]
    obtain ⟨a, b⟩ := rsiStep_nonneg period hp p h1 h2 c
    exact ih _ a b

theorem rsiAvgs_nonneg (klines : List Kline) (period : ℕ) (hp : 1 ≤ period) :
    0 ≤ (rsiAvgs klines period).1 ∧ 0 ≤ (rsiAvgs klines period).2 := by
  rw [rsiAvgs_eq_spec]
  unfold rsiAvgsSpec
  apply foldl_rsiStep_nonneg period hp
  · apply div_nonneg _ (Nat.cast_nonneg period)
    apply List.sum_nonneg
    intro x hx
    have := (List.mem_filter.mp hx).2
    have hx0 : 0 < x := by simpa using this
    linarith
  · apply div_nonneg _ (Nat.cast_nonneg period)
    apply List.sum_nonneg
    intro x hx
    rw [List.mem_map] at hx
    obtain ⟨y, hy, rfl⟩ := hx
    have := (List.mem_filter.mp hy).2
    have hy0 : ¬ 0 < y := by simpa using this
    push_neg at hy0
    linarith

/-- C3: `calculateRSI` fails closed to 0 when `len <= period`; its averages
are exactly the spec's seeded Wilder averages; and above the threshold the
result lies in [0,100], equals exactly 100 when the final smoothed
`avgLoss` is 0, and otherwise equals `100 - 100/(1 + avgGain/avgLoss)`. -/
theorem rsi_fails_closed_range_spec (klines : List Kline) (period : ℕ) (hp : 1 ≤ period) :
    (klines.length ≤ period → calculateRSI klines period = 0) ∧
    rsiAvgs klines period = rsiAvgsSpec klines period ∧
    (period < klines.length →
      0 ≤ calculateRSI klines period ∧ calculateRSI klines period ≤ 100 ∧
      ((rsiAvgs klines period).2 = 0 → calculateRSI klines period = 100) ∧
      ((rsiAvgs klines period).2 ≠ 0 →
        calculateRSI klines period =
          100 - 100 / (1 + (rsiAvgs klines period).1 / (rsiAvgs klines period).2))) := by
  refine ⟨fun h => by simp [calculateRSI, h], rsiAvgs_eq_spec klines period, fun h => ?_⟩
  have hnot : ¬ klines.length ≤ period := Nat.not_le.mpr h
  obtain ⟨hg, hl⟩ := rsiAvgs_nonneg klines period hp
  by_cases hz : (rsiAvgs klines period).2 = 0
  · have hres : calculateRSI klines period = 100 := by
      simp only [calculateRSI, if_neg hnot]
      rw [if_pos hz]
    exact ⟨by rw [hres]; norm_num, by rw [hres], fun _ => hres, fun hne => absurd hz hne⟩
  · have hlpos : 0 < (rsiAvgs klines period).2 := lt_of_le_of_ne hl (Ne.symm hz)
    have hrs : 0 ≤ (rsiAvgs klines period).1 / (rsiAvgs klines period).2 := div_nonneg hg hl
    have hd : (0:ℚ) < 1 + (rsiAvgs klines period).1 / (rsiAvgs klines period).2 := by linarith
    have h2 : 100 / (1 + (rsiAvgs klines period).1 / (rsiAvgs klines period).2) ≤ 100 :=
      div_le_self (by norm_num) (by linarith)
    have h3 : 0 < 100 / (1 + (rsiAvgs klines period).1 / (rsiAvgs klines period).2) := by
      positivity
    have hres : calculateRSI klines period =
        100 - 100 / (1 + (rsiAvgs klines period).1 / (rsiAvgs klines period).2) := by
      simp only [calculateRSI, if_neg hnot]
      rw [if_neg hz]
    exact ⟨by rw [hres]; linarith, by rw [hres]; linarith,
      fun hzz => absurd hzz hz, fun _ => hres⟩

/-- Witness for C3: RSI over the 9 strictly rising candles 1..9 with
period 7 is within [0,100]. -/
theorem rsi_fails_closed_range_spec_witness :
    1 ≤ 7 ∧ 7 < (candles30.take 9).length ∧
    0 ≤ calculateRSI (candles30.take 9) 7 ∧ calculateRSI (candles30.take 9) 7 ≤ 100 :=
  ⟨by decide, by decide,
   ((rsi_fails_closed_range_spec (candles30.take 9) 7 (by decide)).2.2 (by decide)).1,
   ((rsi_fails_closed_range_spec (candles30.take 9) 7 (by decide)).2.2 (by decide)).2.1⟩

end Market

namespace Market

/-! ### ATR (C4) -/

/-- Modelled from the spec: the true range at 1-indexed position `i`
(`max(high-low, |high-prevClose|, |low-prevClose|)` of candle `i` against
candle `i-1`). -/
def trAt (klines : List Kline) (i : ℕ) : ℚ :=
  trueRange (klines.getD i defaultKline) (klines.getD (i - 1) defaultKline)

/-- Modelled from the spec: ATR as the average of the true ranges at
positions 1..period (the first candle contributes none), then the Wilder
recurrence `atr = (atr*(period-1) + tr)/period` at positions
period+1..len-1. -/
def atrSpecDef (klines : List Kline) (period : ℕ) : ℚ :=
  if klines.length ≤ period then 0
  else
    ((List.range' (period + 1) (klines.length - 1 - period)).map (trAt klines)).foldl
      (fun atr tr => (atr * ((period : ℚ) - 1) + tr) / (period : ℚ))
      (((List.range' 1 period).map (trAt klines)).sum / (period : ℚ))

theorem trueRanges_eq_range' (klines : List Kline) :
    trueRanges klines = (List.range' 1 (klines.length - 1)).map (trAt klines) := by
  apply List.ext_getElem
  · simp [trueRanges]
  · intro i h1 h2
    simp only [trueRanges, List.length_zipWith, List.length_tail] at h1
    simp only [trueRanges, List.getElem_zipWith, List.getElem_tail, List.getElem_map,
      List.getElem_range', Nat.one_mul]
    unfold trAt
    rw [List.getD_eq_getElem, List.getD_eq_getElem]
    all_goals try omega
    simp only [Nat.add_comm 1 i, Nat.add_sub_cancel]

theorem calculateATR_eq_spec (klines : List Kline) (period : ℕ) :
    calculateATR klines period = atrSpecDef klines period := by
  simp only [calculateATR, atrSpecDef]
  by_cases h : klines.length ≤ period
  · rw [if_pos h, if_pos h]
  · rw [if_neg h, if_neg h]
    rw [trueRanges_eq_range', ← List.map_take, ← List.map_drop, take_range', drop_range']
    have hm : min period (klines.length - 1) = period := by omega
    rw [hm, Nat.add_comm 1 period]

/-- The 15 flat candles: open/high/low/close all 100, no true-range movement. -/
def flat15 : List Kline := List.replicate 15 (closeCandle 100)

/-- C4: `calculateATR` fails closed to 0 when `len <= period`, otherwise
equals the spec's formulation `atrSpecDef` (average of the true ranges at
positions 1..period, then the Wilder recurrence over the remaining
positions); and on 15 flat candles ATR(seq,14) = 0. -/
theorem atr_fails_closed_spec_flat :
    (∀ (klines : List Kline) (period : ℕ),
      calculateATR klines period = atrSpecDef klines period) ∧
    (∀ (klines : List Kline) (period : ℕ),
      klines.length ≤ period → calculateATR klines period = 0) ∧
    calculateATR flat15 14 = 0 := by
  refine ⟨calculateATR_eq_spec, ?_, ?_⟩
  · intro klines period h
    simp [calculateATR, h]
  · norm_num [calculateATR, trueRanges, trueRange, flat15, closeCandle, List.replicate]

/-- Witness for C4 at a concrete input: the fail-closed branch for an
empty sequence with period 3. -/
theorem atr_fails_closed_spec_flat_witness :
    ([] : List Kline).length ≤ 3 ∧ calculateATR [] 3 = 0 :=
  ⟨by decide, atr_fails_closed_spec_flat.2.1 [] 3 (by decide)⟩

end Market

namespace Market

/-! ### Trailing series sampler (C6) -/

theorem windowIdxs_eq (n : ℕ) : windowIdxs n = List.range' (n - 10) (n - (n - 10)) := by
  rw [windowIdxs, List.range_eq_range', drop_range', Nat.zero_add]

theorem mem_windowIdxs (n i : ℕ) : i ∈ windowIdxs n ↔ n - 10 ≤ i ∧ i < n := by
  rw [windowIdxs_eq, List.mem_range'_1]
  omega

theorem mem_window_filterMap (n t : ℕ) (f : ℕ → ℚ) (q : ℚ)
    (hq : q ∈ (windowIdxs n).filterMap (fun i => if t ≤ i then some (f i) else none)) :
    ∃ i, n - 10 ≤ i ∧ i < n ∧ t ≤ i ∧ q = f i := by
  rw [List.mem_filterMap] at hq
  obtain ⟨i, hi, hfi⟩ := hq
  rw [mem_windowIdxs] at hi
  by_cases ht : t ≤ i
  · rw [if_pos ht, Option.some.injEq] at hfi
    exact ⟨i, hi.1, hi.2, ht, hfi.symm⟩
  · rw [if_neg ht] at hfi
    cases hfi

/-- C6: the trailing series iterate over the last ≤10 candle indices, emit
the indicator recomputed on the prefix `[0..i]` only past that indicator's
minimum-history threshold (19 / 25 / 7 / 14), so every emitted point comes
from a prefix on which the indicator's fail-closed guard is not triggered;
points below the threshold are omitted (in particular any sequence shorter
than 20 candles yields an empty EMA20 series), while the mid-price series
is the closes of the window, of length exactly min(10, N), with no gate. -/
theorem intraday_series_window_gates (klines : List Kline) :
    (calculateIntradaySeries klines).MidPrices =
        (klines.drop (klines.length - 10)).map Kline.close ∧
    (calculateIntradaySeries klines).MidPrices.length = min 10 klines.length ∧
    (∀ q ∈ (calculateIntradaySeries klines).EMA20Values, ∃ i,
      klines.length - 10 ≤ i ∧ i < klines.length ∧ 19 ≤ i ∧
      q = calculateEMA (klines.take (i + 1)) 20 ∧ ¬ (klines.take (i + 1)).length < 20) ∧
    (∀ q ∈ (calculateIntradaySeries klines).MACDValues, ∃ i,
      klines.length - 10 ≤ i ∧ i < klines.length ∧ 25 ≤ i ∧
      q = calculateMACD (klines.take (i + 1)) ∧ ¬ (klines.take (i + 1)).length < 26) ∧
    (∀ q ∈ (calculateIntradaySeries klines).RSI7Values, ∃ i,
      klines.length - 10 ≤ i ∧ i < klines.length ∧ 7 ≤ i ∧
      q = calculateRSI (klines.take (i + 1)) 7 ∧ ¬ (klines.take (i + 1)).length ≤ 7) ∧
    (∀ q ∈ (calculateIntradaySeries klines).RSI14Values, ∃ i,
      klines.length - 10 ≤ i ∧ i < klines.length ∧ 14 ≤ i ∧
      q = calculateRSI (klines.take (i + 1)) 14 ∧ ¬ (klines.take (i + 1)).length ≤ 14) ∧
    (klines.length < 20 → (calculateIntradaySeries klines).EMA20Values = []) := by
  refine ⟨rfl, ?_, ?_, ?_, ?_, ?_, ?_⟩
  · simp only [calculateIntradaySeries, List.length_map, List.length_drop]
    omega
  · intro q hq
    obtain ⟨i, h1, h2, h3, h4⟩ :=
      mem_window_filterMap klines.length 19 (fun i => calculateEMA (klines.take (i + 1)) 20) q hq
    exact ⟨i, h1, h2, h3, h4, by simp [List.length_take]; omega⟩
  · intro q hq
    obtain ⟨i, h1, h2, h3, h4⟩ :=
      mem_window_filterMap klines.length 25 (fun i => calculateMACD (klines.take (i + 1))) q hq
    exact ⟨i, h1, h2, h3, h4, by simp [List.length_take]; omega⟩
  · intro q hq
    obtain ⟨i, h1, h2, h3, h4⟩ :=
      mem_window_filterMap klines.length 7 (fun i => calculateRSI (klines.take (i + 1)) 7) q hq
    exact ⟨i, h1, h2, h3, h4, by simp [List.length_take]; omega⟩
  · intro q hq
    obtain ⟨i, h1, h2, h3, h4⟩ :=
      mem_window_filterMap klines.length 14 (fun i => calculateRSI (klines.take (i + 1)) 14) q hq
    exact ⟨i, h1, h2, h3, h4, by simp [List.length_take]; omega⟩
  · intro h
    show (windowIdxs klines.length).filterMap
      (fun i => if 19 ≤ i then some (calculateEMA (klines.take (i + 1)) 20) else none) = []
    rw [List.filterMap_eq_nil_iff]
    intro i hi
    rw [mem_windowIdxs] at hi
    rw [if_neg (by omega)]

/-- Witness for C6: a 5-candle sequence yields an empty EMA20 trailing
series, not a zero-filled one. -/
theorem intraday_series_window_gates_witness :
    (candles30.take 5).length < 20 ∧
    (calculateIntradaySeries (candles30.take 5)).EMA20Values = [] :=
  ⟨by decide, (intraday_series_window_gates (candles30.take 5)).2.2.2.2.2.2 (by decide)⟩

end Market

namespace Market

/-! ### Snapshot aggregation -/

theorem getWithInterval_ok (symbol : String) (scan : ℕ) (env : FetchEnv)
    (l m : List Kline) (k : Kline)
    (hl : env.intraday = .ok l) (hm : env.fourHour = .ok m) (hk : l.getLast? = some k) :
    GetWithInterval symbol scan env = .ok
      { Symbol := Normalize symbol
        CurrentPrice := k.close
        PriceChange1h := priceChange1hCalc l scan k.close
        PriceChange4h := priceChange4hCalc m k.close
        CurrentEMA20 := calculateEMA l 20
        CurrentMACD := calculateMACD l
        CurrentRSI7 := calculateRSI l 7
        OpenInterest := oiOrDefault env.openInterest
        FundingRate := frOrDefault env.fundingRate
        IntradaySeries := { calculateIntradaySeries l with Interval := selectInterval scan }
        LongerTermContext := calculateLongerTermData m } := by
  simp only [GetWithInterval, hl, hm, hk]

theorem getWithInterval_intraday_error (symbol : String) (scan : ℕ) (env : FetchEnv)
    (e : String) (h : env.intraday = .error e) :
    GetWithInterval symbol scan env = .error (intradayFetchErr (selectInterval scan) e) := by
  simp only [GetWithInterval, h]

theorem getWithInterval_fourHour_error (symbol : String) (scan : ℕ) (env : FetchEnv)
    (l : List Kline) (e : String) (hl : env.intraday = .ok l) (h : env.fourHour = .error e) :
    GetWithInterval symbol scan env = .error (fourHourFetchErr e) := by
  simp only [GetWithInterval, hl, h]

end Market

namespace Market

/-! ### Error handling of the snapshot aggregator (C8) -/

/-- C8: snapshot construction errors exactly on a candle-fetch failure and
the error identifies which fetch failed (intraday interval vs 4h); with
both candle fetches succeeding (and a non-empty intraday sequence) the
snapshot exists, every non-OI/funding field is computed from the candle
data alone, a failed open-interest fetch contributes `{0,0}` and a failed
funding-rate fetch contributes `0`. -/
theorem snapshot_error_contract (symbol : String) (scan : ℕ) (env : FetchEnv) :
    (∀ e, env.intraday = .error e →
      GetWithInterval symbol scan env = .error (intradayFetchErr (selectInterval scan) e)) ∧
    (∀ l e, env.intraday = .ok l → env.fourHour = .error e →
      GetWithInterval symbol scan env = .error (fourHourFetchErr e)) ∧
    (∀ l m k, env.intraday = .ok l → env.fourHour = .ok m → l.getLast? = some k →
      GetWithInterval symbol scan env = .ok
        { Symbol := Normalize symbol
          CurrentPrice := k.close
          PriceChange1h := priceChange1hCalc l scan k.close
          PriceChange4h := priceChange4hCalc m k.close
          CurrentEMA20 := calculateEMA l 20
          CurrentMACD := calculateMACD l
          CurrentRSI7 := calculateRSI l 7
          OpenInterest := oiOrDefault env.openInterest
          FundingRate := frOrDefault env.fundingRate
          IntradaySeries := { calculateIntradaySeries l with Interval := selectInterval scan }
          LongerTermContext := calculateLongerTermData m }) ∧
    (∀ e, env.openInterest = .error e →
      oiOrDefault env.openInterest = { Latest := 0, Average := 0 }) ∧
    (∀ e, env.fundingRate = .error e → frOrDefault env.fundingRate = 0) := by
  refine ⟨fun e h => getWithInterval_intraday_error symbol scan env e h,
    fun l e hl h => getWithInterval_fourHour_error symbol scan env l e hl h,
    fun l m k hl hm hk => getWithInterval_ok symbol scan env l m k hl hm hk,
    fun e h => ?_, fun e h => ?_⟩
  · rw [h]; rfl
  · rw [h]; rfl

/-- Fetch environment whose open-interest and funding-rate fetches fail. -/
def envOIFail : FetchEnv :=
  { intraday := .ok [closeCandle 110]
    fourHour := .ok []
    openInterest := .error "OI down"
    fundingRate := .error "FR down" }

/-- Witness for C8: with a failing open-interest fetch the snapshot is
still returned and carries openInterest = {0,0} and fundingRate = 0. -/
theorem snapshot_error_contract_witness :
    envOIFail.openInterest = .error "OI down" ∧
    envOIFail.fundingRate = .error "FR down" ∧
    (GetWithInterval "BTC" 3 envOIFail).map Data.OpenInterest =
      .ok { Latest := 0, Average := 0 } ∧
    (GetWithInterval "BTC" 3 envOIFail).map Data.FundingRate = .ok 0 := by
  refine ⟨rfl, rfl, ?_, ?_⟩ <;>
    rw [(snapshot_error_contract "BTC" 3 envOIFail).2.2.1 [closeCandle 110] []
      (closeCandle 110) rfl rfl rfl] <;> rfl

/-! ### Safety on an empty 4h sequence (C9) -/

/-- C9: with a non-empty intraday sequence, an empty 4h sequence causes no
error: the snapshot exists, its priceChange4h is 0 and its longer-term
context has all six scalars 0 and both trailing series empty. -/
theorem empty_fourHour_safe (symbol : String) (scan : ℕ) (env : FetchEnv)
    (l : List Kline) (k : Kline)
    (hl : env.intraday = .ok l) (hk : l.getLast? = some k) (h4 : env.fourHour = .ok []) :
    (∃ d, GetWithInterval symbol scan env = .ok d) ∧
    (GetWithInterval symbol scan env).map Data.PriceChange4h = .ok 0 ∧
    (GetWithInterval symbol scan env).map Data.LongerTermContext =
      .ok { EMA20 := 0, EMA50 := 0, ATR3 := 0, ATR14 := 0,
            CurrentVolume := 0, AverageVolume := 0, MACDValues := [], RSI14Values := [] } := by
  rw [getWithInterval_ok symbol scan env l [] k hl h4 hk]
  exact ⟨⟨_, rfl⟩, rfl, rfl⟩

/-- Fetch environment with a single intraday candle and no 4h candles. -/
def envEmpty4h : FetchEnv :=
  { intraday := .ok [closeCandle 7]
    fourHour := .ok []
    openInterest := .ok { Latest := 1, Average := 1 }
    fundingRate := .ok 0 }

/-- Witness for C9 at a concrete input. -/
theorem empty_fourHour_safe_witness :
    envEmpty4h.intraday = .ok [closeCandle 7] ∧
    ([closeCandle 7] : List Kline).getLast? = some (closeCandle 7) ∧
    envEmpty4h.fourHour = .ok [] ∧
    (GetWithInterval "ETH" 5 envEmpty4h).map Data.PriceChange4h = .ok 0 :=
  ⟨rfl, rfl, rfl,
   (empty_fourHour_safe "ETH" 5 envEmpty4h [closeCandle 7] (closeCandle 7) rfl rfl rfl).2.1⟩

end Market

namespace Market

/-! ### 4h price change (C1) -/

/-- Fetch environment where the latest 4h close (200) differs from the
latest intraday close (110), separating the two candidate formulas. -/
def env4hMismatch : FetchEnv :=
  { intraday := .ok [closeCandle 110]
    fourHour := .ok [closeCandle 50, closeCandle 200]
    openInterest := .ok { Latest := 0, Average := 0 }
    fundingRate := .ok 0 }

/-- Counterexample to C1 as stated: the snapshot's priceChange4h is
computed from the latest *intraday* close (110), not the latest 4h close
(200).  Here the 4h close at index len-2 is 50 and positive, the claim's
formula `(latest 4h close - past)/past*100` gives 300, but the snapshot
carries (110-50)/50*100 = 120. -/
theorem priceChange4h_counterexample :
    (GetWithInterval "BTC" 3 env4hMismatch).map Data.PriceChange4h = .ok 120 ∧
    ((200 : ℚ) - 50) / 50 * 100 = 300 ∧ (120 : ℚ) ≠ 300 := by
  refine ⟨?_, by norm_num, by norm_num⟩
  rw [getWithInterval_ok "BTC" 3 env4hMismatch [closeCandle 110]
    [closeCandle 50, closeCandle 200] (closeCandle 110) rfl rfl rfl]
  simp only [Except.map]
  norm_num [priceChange4hCalc, closeCandle]

/-- C1 (amended): for a 4h sequence with at least 2 candles whose close at
index len-2 is positive, the snapshot's priceChange4h equals
`(latest INTRADAY close - 4h close at len-2) / (4h close at len-2) * 100`
(the latest intraday close is the snapshot's current price); it is 0 when
the 4h sequence has fewer than 2 candles or that past close is ≤ 0. -/
theorem priceChange4h_amended (symbol : String) (scan : ℕ) (env : FetchEnv)
    (l m : List Kline) (k : Kline)
    (hl : env.intraday = .ok l) (hm : env.fourHour = .ok m) (hk : l.getLast? = some k) :
    (2 ≤ m.length → 0 < (m.getD (m.length - 2) defaultKline).close →
      (GetWithInterval symbol scan env).map Data.PriceChange4h =
        .ok (((k.close - (m.getD (m.length - 2) defaultKline).close) /
              (m.getD (m.length - 2) defaultKline).close) * 100)) ∧
    (m.length < 2 →
      (GetWithInterval symbol scan env).map Data.PriceChange4h = .ok 0) ∧
    (2 ≤ m.length → (m.getD (m.length - 2) defaultKline).close ≤ 0 →
      (GetWithInterval symbol scan env).map Data.PriceChange4h = .ok 0) := by
  rw [getWithInterval_ok symbol scan env l m k hl hm hk]
  refine ⟨fun h2 hpos => ?_, fun hlt => ?_, fun h2 hle => ?_⟩ <;> simp only [Except.map]
  · simp only [priceChange4hCalc, if_pos h2, if_pos hpos]
  · simp only [priceChange4hCalc, if_neg (by omega : ¬ 2 ≤ m.length)]
  · simp only [priceChange4hCalc, if_pos h2, if_neg (not_lt.mpr hle)]

/-- Witness for C1 (amended) at a concrete input: 110 vs the 4h close 50. -/
theorem priceChange4h_amended_witness :
    2 ≤ ([closeCandle 50, closeCandle 200] : List Kline).length ∧
    0 < (([closeCandle 50, closeCandle 200] : List Kline).getD
          (([closeCandle 50, closeCandle 200] : List Kline).length - 2) defaultKline).close ∧
    (GetWithInterval "BTC" 3 env4hMismatch).map Data.PriceChange4h =
      .ok ((((closeCandle 110).close -
            (([closeCandle 50, closeCandle 200] : List Kline).getD
              (([closeCandle 50, closeCandle 200] : List Kline).length - 2) defaultKline).close) /
            (([closeCandle 50, closeCandle 200] : List Kline).getD
              (([closeCandle 50, closeCandle 200] : List Kline).length - 2) defaultKline).close) * 100) :=
  ⟨by decide, by norm_num [closeCandle],
   (priceChange4h_amended "BTC" 3 env4hMismatch [closeCandle 110]
      [closeCandle 50, closeCandle 200] (closeCandle 110) rfl rfl rfl).1
      (by decide) (by norm_num [closeCandle])⟩

/-! ### 1h price change (C7) -/

/-- The 21 candles whose closes are 100 except the latest close of 110. -/
def candles21 : List Kline := List.replicate 20 (closeCandle 100) ++ [closeCandle 110]

/-- Fetch environment delivering `candles21` as the intraday sequence. -/
def env21 : FetchEnv :=
  { intraday := .ok candles21
    fourHour := .ok []
    openInterest := .ok { Latest := 0, Average := 0 }
    fundingRate := .ok 0 }

/-- C7: with `k = floor(60/scanIntervalMinutes)`, the 1h price change
compares the current price to the close `k` candles before the latest when
at least `k+1` candles exist and that past close is positive, and is 0
otherwise; with scanIntervalMinutes = 3 on `candles21` the snapshot's
priceChange1h is exactly 10. -/
theorem priceChange1h_spec (klines : List Kline) (scan : ℕ) (c : ℚ) (_hs : 1 ≤ scan) :
    (60 / scan + 1 ≤ klines.length →
      0 < (klines.getD (klines.length - 60 / scan - 1) defaultKline).close →
      priceChange1hCalc klines scan c =
        ((c - (klines.getD (klines.length - 60 / scan - 1) defaultKline).close) /
          (klines.getD (klines.length - 60 / scan - 1) defaultKline).close) * 100) ∧
    (klines.length < 60 / scan + 1 → priceChange1hCalc klines scan c = 0) ∧
    (¬ 0 < (klines.getD (klines.length - 60 / scan - 1) defaultKline).close →
      priceChange1hCalc klines scan c = 0) ∧
    (GetWithInterval "BTC" 3 env21).map Data.PriceChange1h = .ok 10 := by
  refine ⟨fun hlen hpos => ?_, fun hlt => ?_, fun hle => ?_, ?_⟩
  · simp only [priceChange1hCalc, if_pos hlen, if_pos hpos]
  · simp only [priceChange1hCalc,
      if_neg (by omega : ¬ 60 / scan + 1 ≤ klines.length)]
  · simp only [priceChange1hCalc, hle, if_false]
    split <;> rfl
  · rw [getWithInterval_ok "BTC" 3 env21 candles21 [] (closeCandle 110) rfl rfl (by rfl)]
    simp only [Except.map]
    norm_num [priceChange1hCalc, candles21, closeCandle, List.replicate]

/-- Witness for C7: the insufficient-history branch at scan interval 3. -/
theorem priceChange1h_spec_witness :
    1 ≤ 3 ∧ ([] : List Kline).length < 60 / 3 + 1 ∧ priceChange1hCalc [] 3 0 = 0 :=
  ⟨by decide, by decide, (priceChange1h_spec [] 3 0 (by decide)).2.1 (by decide)⟩

end Market
